import Mathlib

/-!
Shallow embedding of the TollVault CSV-ingestion-and-aggregation core
(`src/main.go`): the record decoder, the ledger store (`transactions`
table), the aggregator and the ingestion pipeline, together with proofs
of the specification claims.

Currency amounts are modelled as `ℚ`: the Go code stores `float64`
values parsed from decimal text, and every amount the claims touch
(125, 75, 0 and small sums) is exactly representable, so rational
arithmetic is a faithful model of the decimal values the code computes.
-/

namespace TollVault

/-- Numeric value of a list of decimal digit characters, most significant
digit first. -/
def digitsToNat (ds : List Char) : Nat :=
  ds.foldl (fun n c => 10 * n + (c.toNat - 48)) 0

/-- Strip leading and trailing whitespace from a character list. -/
def trimChars (cs : List Char) : List Char :=
  (((cs.dropWhile Char.isWhitespace).reverse).dropWhile Char.isWhitespace).reverse

/-- Model of Go `strings.TrimSpace` (delete surrounding whitespace,
leave the interior untouched). -/
def trimSpace (s : String) : String := ⟨trimChars s.data⟩

/-- Lexicographic `≤` on character lists, comparing code points — the
order `memcmp` induces on UTF-8 text, hence SQLite's BINARY collation. -/
def leChars : List Char → List Char → Bool
  | [], _ => true
  | _ :: _, [] => false
  | a :: as, b :: bs => if a < b then true else if b < a then false else leChars as bs

/-- String comparison under SQLite's BINARY collation (used by `MAX`,
`ORDER BY` and `<=` on the TEXT `upload_date` column). -/
def strLe (s t : String) : Bool := leChars s.data t.data

/-- Model of Go `strconv.ParseFloat` on the plain decimal syntax
(optional sign, digits with at most one decimal point, optional decimal
exponent); `none` models a parse error.  The special forms (`Inf`,
`NaN`, hexadecimal floats, digit-group underscores) are not modelled:
the inputs relevant here are decimal currency text or garbage. -/
def parseDecimal (s : String) : Option ℚ :=
  let cs := s.toList
  let signRest : Bool × List Char :=
    match cs with
    | '-' :: rest => (true, rest)
    | '+' :: rest => (false, rest)
    | rest => (false, rest)
  let neg := signRest.1
  let cs1 := signRest.2
  let intPart := cs1.takeWhile Char.isDigit
  let cs2 := cs1.dropWhile Char.isDigit
  let fracRest : List Char × List Char :=
    match cs2 with
    | '.' :: rest => (rest.takeWhile Char.isDigit, rest.dropWhile Char.isDigit)
    | rest => ([], rest)
  let fracPart := fracRest.1
  let cs3 := fracRest.2
  if intPart.length + fracPart.length = 0 then none
  else
    let mantissa : Int := ((digitsToNat intPart * 10 ^ fracPart.length + digitsToNat fracPart : Nat) : Int)
    let num : Int := if neg then -mantissa else mantissa
    match cs3 with
    | [] => some (mkRat num (10 ^ fracPart.length))
    | e :: rest =>
      if e = 'e' ∨ e = 'E' then
        let esignRest : Bool × List Char :=
          match rest with
          | '-' :: r => (true, r)
          | '+' :: r => (false, r)
          | r => (false, r)
        let eds := esignRest.2.takeWhile Char.isDigit
        let rest2 := esignRest.2.dropWhile Char.isDigit
        if eds = [] ∨ rest2 ≠ [] then none
        else if esignRest.1 then some (mkRat num (10 ^ (fracPart.length + digitsToNat eds)))
        else some (mkRat (num * 10 ^ digitsToNat eds) (10 ^ fracPart.length))
      else none

/-- One row of the `transactions` table (`Transaction` in `main.go`).
`UploadDate` is the TEXT `upload_date` column. -/
structure Transaction where
  EnrolmentNoDate : String
  TotalAmountCharged : ℚ
  GSTAmount : ℚ
  OperatorID : String
  ResidentName : String
  UploadDate : String
deriving DecidableEq

/-- `SlabCounts` from `main.go`. -/
structure SlabCounts where
  Count125 : Nat
  Count75 : Nat
  Count0 : Nat
deriving DecidableEq

/-- `UploadResult` from `main.go` (the upload summary). -/
structure UploadResult where
  Filename : String
  Rows : Nat
  Revenue : ℚ
  GST : ℚ
  Slabs : SlabCounts
deriving DecidableEq

/-- `HistoryRow` from `main.go`. -/
structure HistoryRow where
  Period : String
  Revenue : ℚ
  GST : ℚ
  Count125 : Nat
  Count75 : Nat
  Count0 : Nat
  Total : Nat
deriving DecidableEq

/-- The `transactions` table, in insertion order. -/
abbrev Store := List Transaction

/-- `saveTransaction` in `main.go`:
`INSERT ... ON CONFLICT(enrolment_no_date) DO NOTHING`.
If a row with the same `enrolment_no_date` exists the statement changes
nothing and reports no error; otherwise the row is appended.  The second
component is the returned Go `error` (`none` = `nil`); in this pure model
of the store no engine-level failure occurs, so it is always `none`. -/
def saveTransaction (s : Store) (t : Transaction) : Store × Option String :=
  if s.any (fun r => r.EnrolmentNoDate == t.EnrolmentNoDate) then (s, none)
  else (s ++ [t], none)

/-- The five required headers checked by `processCSV`, in the order the
code checks them. -/
def requiredColumns : List String :=
  ["ENROLMENT_NO_DATE", "TOTAL_AMOUNT_CHARGED", "GST_AMOUNT", "OPERATOR_ID", "RESIDENT_NAME"]

/-- The header map `hm` of `processCSV`: `hm[strings.TrimSpace(h)] = i`
assigned in order, so the LAST header that trims to `name` wins. -/
def headerIndex (headers : List String) (name : String) : Option Nat :=
  ((headers.enum.filter (fun p => trimSpace p.2 == name)).getLast?).map (·.1)

/-- First required column absent from the header map (`processCSV`
checks them in `requiredColumns` order and fails on the first miss). -/
def firstMissing (headers : List String) : Option String :=
  requiredColumns.find? (fun r => (headerIndex headers r).isNone)

/-- The five column indices `processCSV` reads through `hm`.  A missing
key in a Go map yields the zero value `0`, modelled by `getD 0`; after
the required-column check all five lookups succeed. -/
structure Indices where
  iKey : Nat
  iAmt : Nat
  iGst : Nat
  iOp : Nat
  iName : Nat

/-- The column indices for a given header row. -/
def mkIndices (headers : List String) : Indices :=
  ⟨(headerIndex headers "ENROLMENT_NO_DATE").getD 0,
   (headerIndex headers "TOTAL_AMOUNT_CHARGED").getD 0,
   (headerIndex headers "GST_AMOUNT").getD 0,
   (headerIndex headers "OPERATOR_ID").getD 0,
   (headerIndex headers "RESIDENT_NAME").getD 0⟩

/-- The `Transaction` literal built in `processCSV`'s loop body:
numeric fields that fail to parse become `0` (Go discards the
`ParseFloat` error and keeps the zero value). -/
def mkTransaction (ix : Indices) (today : String) (rec : List String) : Transaction :=
  { EnrolmentNoDate := rec.getD ix.iKey ""
    TotalAmountCharged := (parseDecimal (rec.getD ix.iAmt "")).getD 0
    GSTAmount := (parseDecimal (rec.getD ix.iGst "")).getD 0
    OperatorID := rec.getD ix.iOp ""
    ResidentName := rec.getD ix.iName ""
    UploadDate := today }

/-- The slab `switch` shared by `processCSV` and `getAnalyticsFiltered`:
`case amt == 125 / 75 / 0`, first match only, other amounts unclassified. -/
def slabAdd (sl : SlabCounts) (amt : ℚ) : SlabCounts :=
  if amt = 125 then { sl with Count125 := sl.Count125 + 1 }
  else if amt = 75 then { sl with Count75 := sl.Count75 + 1 }
  else if amt = 0 then { sl with Count0 := sl.Count0 + 1 }
  else sl

/-- Folding one decoded row into the running `UploadResult`
(`result.Rows++; result.Revenue += amt; result.GST += gst;` plus the
slab switch). -/
def foldRow (acc : UploadResult) (amt gst : ℚ) : UploadResult :=
  { acc with
      Rows := acc.Rows + 1
      Revenue := acc.Revenue + amt
      GST := acc.GST + gst
      Slabs := slabAdd acc.Slabs amt }

/-- One line delivered by Go's `csv.Reader`: a decoded record, or a read
error (malformed quoting, stream failure).  `io.EOF` is the end of the
list. -/
abbrev CSVLine := Except String (List String)

/-- The zero `UploadResult` (`result := &UploadResult{}`). -/
def emptyResult : UploadResult := ⟨"", 0, 0, 0, ⟨0, 0, 0⟩⟩

/-- The record loop of `processCSV`, generic in the store so that the
persistence layer can be varied.  `reader.Read` enforces that every
record has the same field count as the header (`csv.ErrFieldCount`),
modelled by the length guard; a read error aborts the loop and is
returned with no summary.  The value returned by `saveFn` is used only
for its store component: `processCSV` ignores `saveTransaction`'s error. -/
def processRows {σ : Type} (saveFn : σ → Transaction → σ × Option String)
    (today : String) (nFields : Nat) (ix : Indices) :
    σ → UploadResult → List CSVLine → σ × Except String UploadResult
  | s, acc, [] => (s, Except.ok acc)
  | s, _, Except.error e :: _ => (s, Except.error e)
  | s, acc, Except.ok rec :: rest =>
    if rec.length = nFields then
      let t := mkTransaction ix today rec
      let s' := (saveFn s t).1
      processRows saveFn today nFields ix s' (foldRow acc t.TotalAmountCharged t.GSTAmount) rest
    else (s, Except.error "record has wrong number of fields")

/-- `processCSV` in `main.go`, generic in the persistence function.
The first line is the header (`reader.Read()`); an empty stream is the
`io.EOF` error of that first read.  Missing required columns abort with
`missing column: <name>` before any row is processed.  `today` is the
caller-supplied upload date (`time.Now().Format("2006-01-02")`). -/
def processCSVGen {σ : Type} (saveFn : σ → Transaction → σ × Option String)
    (s : σ) (today : String) : List CSVLine → σ × Except String UploadResult
  | [] => (s, Except.error "EOF")
  | Except.error e :: _ => (s, Except.error e)
  | Except.ok headers :: body =>
    match firstMissing headers with
    | some r => (s, Except.error ("missing column: " ++ r))
    | none => processRows saveFn today headers.length (mkIndices headers) s emptyResult body

/-- `processCSV` applied to the real store (`saveTransaction`). -/
def processCSV (s : Store) (today : String) (input : List CSVLine) :
    Store × Except String UploadResult :=
  processCSVGen saveTransaction s today input

/-- One step of the accumulation loop of `getAnalyticsFiltered`:
`rev += a; gst += g; total++` plus the slab switch. -/
def aggStep (acc : ℚ × ℚ × SlabCounts × Nat) (p : ℚ × ℚ) : ℚ × ℚ × SlabCounts × Nat :=
  (acc.1 + p.1, acc.2.1 + p.2, slabAdd acc.2.2.1 p.1, acc.2.2.2 + 1)

/-- The aggregator: `getAnalyticsFiltered`'s loop over the queried
`(total_amount_charged, gst_amount)` pairs, returning
`(revenue, gst, slabs, total)`. -/
def aggregatePairs (l : List (ℚ × ℚ)) : ℚ × ℚ × SlabCounts × Nat :=
  l.foldl aggStep (0, 0, ⟨0, 0, 0⟩, 0)

/-- `getAnalyticsFiltered` with the SQL WHERE clause abstracted as a row
predicate. -/
def getAnalyticsFiltered (s : Store) (p : Transaction → Bool) : ℚ × ℚ × SlabCounts × Nat :=
  aggregatePairs ((s.filter p).map (fun t => (t.TotalAmountCharged, t.GSTAmount)))

/-- `SELECT MAX(upload_date) FROM transactions`: `none` models the SQL
NULL of an empty table; TEXT MAX uses BINARY collation, i.e. Lean's
`String` order. -/
def maxUploadDate : Store → Option String
  | [] => none
  | t :: ts => some ((ts.map (·.UploadDate)).foldl (fun a b => if strLe a b then b else a) t.UploadDate)

/-- `handleReset`: deletes every row whose `upload_date` equals the
current maximum; redirects without deleting when the table is empty
(SQL NULL) or the maximum is the empty string (the
`!lastDate.Valid || lastDate.String == ""` guard). -/
def handleReset (s : Store) : Store :=
  match maxUploadDate s with
  | none => s
  | some d => if d = "" then s else s.filter (fun t => t.UploadDate != d)

/-- Store states reachable through the application's mutations: the
table is created empty (`initDB`), grows only through `saveTransaction`
(every insert of `processCSV` goes through it) and shrinks only through
`handleReset`. -/
inductive Reachable : Store → Prop
  | empty : Reachable []
  | save {s : Store} (t : Transaction) : Reachable s → Reachable (saveTransaction s t).1
  | reset {s : Store} : Reachable s → Reachable (handleReset s)

/-- Gregorian leap year (SQLite's calendar arithmetic). -/
def isLeap (y : Nat) : Bool :=
  (y % 4 == 0 && y % 100 != 0) || y % 400 == 0

/-- Length of a month in the proleptic Gregorian calendar. -/
def daysInMonth (y m : Nat) : Nat :=
  if m = 2 then (if isLeap y then 29 else 28)
  else if m = 4 ∨ m = 6 ∨ m = 9 ∨ m = 11 then 30 else 31

/-- A calendar date as stored in the `upload_date` column. -/
structure Date where
  year : Nat
  month : Nat
  day : Nat
deriving DecidableEq

/-- One-based day of the year. -/
def dayOfYear (dt : Date) : Nat :=
  dt.day + ((List.range (dt.month - 1)).map (fun i => daysInMonth dt.year (i + 1))).sum

/-- Days in years `1 .. y-1` of the proleptic Gregorian calendar. -/
def daysBeforeYear (y : Nat) : Nat :=
  365 * (y - 1) + (y - 1) / 4 + (y - 1) / 400 - (y - 1) / 100

/-- Weekday with Monday = 0, ..., Sunday = 6 (0001-01-01 is a Monday). -/
def weekdayMon0 (dt : Date) : Nat :=
  (daysBeforeYear dt.year + dayOfYear dt - 1) % 7

/-- SQLite's parse of an ISO `YYYY-MM-DD` TEXT value, restricted to
well-formed calendar dates (the only values the application writes). -/
def parseDate (s : String) : Option Date :=
  match s.toList with
  | [y1, y2, y3, y4, '-', m1, m2, '-', d1, d2] =>
    if [y1, y2, y3, y4, m1, m2, d1, d2].all Char.isDigit then
      let y := digitsToNat [y1, y2, y3, y4]
      let m := digitsToNat [m1, m2]
      let d := digitsToNat [d1, d2]
      if 1 ≤ m ∧ m ≤ 12 ∧ 1 ≤ d ∧ d ≤ daysInMonth y m then some ⟨y, m, d⟩ else none
    else none
  | _ => none

/-- Two-digit zero-padded decimal (SQLite `%m`, `%W`). -/
def pad2 (n : Nat) : String := if n < 10 then "0" ++ toString n else toString n

/-- Four-digit zero-padded decimal (SQLite `%Y` for years 0-9999). -/
def pad4 (n : Nat) : String :=
  if n < 10 then "000" ++ toString n
  else if n < 100 then "00" ++ toString n
  else if n < 1000 then "0" ++ toString n
  else toString n

/-- SQLite `strftime('%Y-W%W', d)`: `%W` is the Monday-based week of the
year (00–53); week 01 starts at the first Monday of the year and days
before it fall in week 00. -/
def weekKey (dt : Date) : String :=
  pad4 dt.year ++ "-W" ++ pad2 ((dayOfYear dt - 1 + 7 - weekdayMon0 dt) / 7)

/-- SQLite `strftime('%Y-%m', d)`. -/
def monthKey (dt : Date) : String := pad4 dt.year ++ "-" ++ pad2 dt.month

/-- SQLite `strftime('%Y', d)`. -/
def yearKey (dt : Date) : String := pad4 dt.year

/-- The `GROUP BY` expression of `getHistory` applied to one stored
`upload_date` value.  On TEXT that is not a recognised date SQLite's
`strftime` yields NULL, which Go's `Scan` into a string leaves as `""`;
the theorems below only involve stores holding well-formed dates. -/
def periodKey (period d : String) : String :=
  match period with
  | "week" => (match parseDate d with | some dt => weekKey dt | none => "")
  | "month" => (match parseDate d with | some dt => monthKey dt | none => "")
  | "year" => (match parseDate d with | some dt => yearKey dt | none => "")
  | _ => d

/-- The WHERE clause `getHistory` builds from the optional bounds:
inclusive string comparison on `upload_date`, each bound applied only
when nonempty. -/
def dateInRange (fromD toD d : String) : Bool :=
  (fromD == "" || strLe fromD d) && (toD == "" || strLe d toD)

/-- The `ORDER BY period DESC` comparison: `a` before `b` when `b ≤ a`
under BINARY collation. -/
def descOrder (a b : String) : Prop := strLe b a = true

instance : DecidableRel descOrder := fun _ _ => instDecidableEqBool _ _

/-- `getHistory`: filter by date range, group rows by the period key,
aggregate each group with SQL `SUM`/`COUNT`, order by key descending
(SQLite BINARY collation on TEXT is Lean's lexicographic `String`
order). -/
def getHistory (s : Store) (period fromD toD : String) : List HistoryRow :=
  let rows := s.filter (fun t => dateInRange fromD toD t.UploadDate)
  let keys := (rows.map (fun t => periodKey period t.UploadDate)).dedup
  let sortedKeys := keys.insertionSort descOrder
  sortedKeys.map (fun k =>
    let grp := rows.filter (fun t => periodKey period t.UploadDate == k)
    { Period := k
      Revenue := (grp.map (·.TotalAmountCharged)).sum
      GST := (grp.map (·.GSTAmount)).sum
      Count125 := grp.countP (fun t => t.TotalAmountCharged == 125)
      Count75 := grp.countP (fun t => t.TotalAmountCharged == 75)
      Count0 := grp.countP (fun t => t.TotalAmountCharged == 0)
      Total := grp.length })

/-- Weeks in an ISO week-numbering year: 53 when the year starts on a
Thursday, or is a leap year starting on a Wednesday; else 52. -/
def weeksInIsoYear (y : Nat) : Nat :=
  let jan1wd := weekdayMon0 ⟨y, 1, 1⟩
  if jan1wd = 3 ∨ (isLeap y ∧ jan1wd = 2) then 53 else 52

/-- Modelled from the spec: "week uses ISO-week-of-year" — the ISO 8601
week number of a date (weeks start on Monday; week 01 is the week
holding the first Thursday of the year, so 1 ≤ week ≤ 53).  Declared
only to compare the spec's wording against the code's `%W` bucket key. -/
def specIsoWeekOfYear (dt : Date) : Nat :=
  let w := (dayOfYear dt + 10 - (weekdayMon0 dt + 1)) / 7
  if w = 0 then weeksInIsoYear (dt.year - 1)
  else if w = 53 ∧ weeksInIsoYear dt.year = 52 then 1
  else w

/-! ### Helper lemmas -/

theorem slabAdd_eq (sl : SlabCounts) (a : ℚ) :
    slabAdd sl a =
      ⟨sl.Count125 + (if a = 125 then 1 else 0),
       sl.Count75 + (if a = 75 then 1 else 0),
       sl.Count0 + (if a = 0 then 1 else 0)⟩ := by
  unfold slabAdd
  split_ifs with h1 h2 h3 h4 h5 h6 <;> simp_all

theorem aggregatePairs_go (l : List (ℚ × ℚ)) :
    ∀ acc : ℚ × ℚ × SlabCounts × Nat,
      l.foldl aggStep acc =
        (acc.1 + (l.map Prod.fst).sum, acc.2.1 + (l.map Prod.snd).sum,
         ⟨acc.2.2.1.Count125 + l.countP (fun p => p.1 == 125),
          acc.2.2.1.Count75 + l.countP (fun p => p.1 == 75),
          acc.2.2.1.Count0 + l.countP (fun p => p.1 == 0)⟩,
         acc.2.2.2 + l.length) := by
  induction l with
  | nil => intro acc; simp
  | cons hd tl ih =>
    intro acc
    rw [List.foldl_cons, ih]
    simp only [aggStep, slabAdd_eq, List.map_cons, List.sum_cons, List.countP_cons,
      List.length_cons, beq_iff_eq]
    refine Prod.ext (by dsimp only; ring) (Prod.ext (by dsimp only; ring) (Prod.ext ?_ ?_))
    · dsimp only
      simp only [SlabCounts.mk.injEq]
      refine ⟨?_, ?_, ?_⟩ <;> split_ifs <;> omega
    · dsimp only
      omega

theorem processRows_snd_indep {σ₁ σ₂ : Type}
    (f₁ : σ₁ → Transaction → σ₁ × Option String) (f₂ : σ₂ → Transaction → σ₂ × Option String)
    (today : String) (nF : Nat) (ix : Indices) (body : List CSVLine) :
    ∀ (s₁ : σ₁) (s₂ : σ₂) (acc : UploadResult),
      (processRows f₁ today nF ix s₁ acc body).2 = (processRows f₂ today nF ix s₂ acc body).2 := by
  induction body with
  | nil => intro s₁ s₂ acc; rfl
  | cons hd tl ih =>
    intro s₁ s₂ acc
    cases hd with
    | error e => rfl
    | ok rec =>
      by_cases h : rec.length = nF
      · simp only [processRows, if_pos h]
        exact ih _ _ _
      · simp only [processRows, if_neg h]

theorem processCSVGen_snd_indep {σ₁ σ₂ : Type}
    (f₁ : σ₁ → Transaction → σ₁ × Option String) (f₂ : σ₂ → Transaction → σ₂ × Option String)
    (s₁ : σ₁) (s₂ : σ₂) (today : String) (input : List CSVLine) :
    (processCSVGen f₁ s₁ today input).2 = (processCSVGen f₂ s₂ today input).2 := by
  match input with
  | [] => rfl
  | Except.error e :: _ => rfl
  | Except.ok headers :: body =>
    simp only [processCSVGen]
    cases firstMissing headers with
    | some r => rfl
    | none => exact processRows_snd_indep f₁ f₂ today headers.length (mkIndices headers) body s₁ s₂ emptyResult

theorem leChars_iff : ∀ l₁ l₂ : List Char, leChars l₁ l₂ = true ↔ l₁ ≤ l₂
  | [], l₂ => by simp [leChars, List.nil_le]
  | a :: as, [] => by
    simp only [leChars, Bool.false_eq_true, false_iff, not_le]
    exact List.nil_lt_cons a as
  | a :: as, b :: bs => by
    simp only [leChars]
    by_cases hab : a < b
    · simp only [if_pos hab, true_iff]
      exact le_of_lt (List.Lex.rel hab)
    · by_cases hba : b < a
      · simp only [if_neg hab, if_pos hba, Bool.false_eq_true, false_iff, not_le]
        exact List.Lex.rel hba
      · have heq : a = b := le_antisymm (not_lt.mp hba) (not_lt.mp hab)
        subst heq
        rw [if_neg hab, if_neg hba, leChars_iff as bs]
        constructor
        · exact fun h => List.cons_le_cons a h
        · intro h
          by_contra hnot
          have hlt : bs < as := not_le.mp hnot
          have hlex : (a :: bs) < (a :: as) := List.Lex.cons hlt
          exact absurd h (not_le.mpr hlex)

theorem strLe_iff {s t : String} : strLe s t = true ↔ s ≤ t := by
  rw [String.le_iff_toList_le]
  exact leChars_iff s.data t.data

theorem headerIndex_eq_none_iff {headers : List String} {name : String} :
    headerIndex headers name = none ↔ ∀ h ∈ headers, trimSpace h ≠ name := by
  unfold headerIndex
  rw [Option.map_eq_none', List.getLast?_eq_none_iff, List.filter_eq_nil_iff]
  rw [List.forall_mem_enum, List.forall_mem_iff_getElem]
  simp [beq_iff_eq]

/-! ### Claim theorems -/

/-- C4: on every sequence of `(amount, gst)` pairs the aggregator loop of
`getAnalyticsFiltered` returns exactly the sum of amounts as revenue, the
sum of GST values as GST, counts a row in `Count125`/`Count75`/`Count0`
precisely when its amount equals 125/75/0 respectively (so any other
amount lands in none of the three counts), and counts every row once in
the overall total. -/
theorem c4_aggregator_classification (l : List (ℚ × ℚ)) :
    aggregatePairs l =
      ((l.map Prod.fst).sum, (l.map Prod.snd).sum,
       ⟨l.countP (fun p => p.1 == 125), l.countP (fun p => p.1 == 75),
        l.countP (fun p => p.1 == 0)⟩,
       l.length) := by
  unfold aggregatePairs
  rw [aggregatePairs_go]
  simp

/-- C10: the outcome of ingestion (the summary or the error) is a function
of the CSV stream alone — it is identical for every persistence function,
including ones that report failures for every row, so store-write errors
are silently discarded, every decoded row is still counted in the summary,
and ingestion never fails for persistence reasons. -/
theorem c10_outcome_independent_of_persistence {σ₁ σ₂ : Type}
    (f₁ : σ₁ → Transaction → σ₁ × Option String) (f₂ : σ₂ → Transaction → σ₂ × Option String)
    (s₁ : σ₁) (s₂ : σ₂) (today : String) (input : List CSVLine) :
    (processCSVGen f₁ s₁ today input).2 = (processCSVGen f₂ s₂ today input).2 :=
  processCSVGen_snd_indep ..

theorem processRows_rows_count {σ : Type} (f : σ → Transaction → σ × Option String)
    (today : String) (nF : Nat) (ix : Indices) (recs : List (List String)) :
    ∀ (s : σ) (acc : UploadResult), (∀ r ∈ recs, r.length = nF) →
      (processRows f today nF ix s acc (recs.map Except.ok)).2.map (·.Rows)
        = Except.ok (acc.Rows + recs.length) := by
  induction recs with
  | nil => intro s acc _; rfl
  | cons r rs ih =>
    intro s acc hlen
    have hr : r.length = nF := hlen r (by simp)
    simp only [List.map_cons, processRows, if_pos hr]
    rw [ih _ _ (fun x hx => hlen x (by simp [hx]))]
    simp only [foldRow, List.length_cons]
    congr 1
    omega

/-- The CSV stream of the C1 scenario: header plus rows
`(A,125,10,OP1,Alice)`, `(B,75,5,OP2,Bob)`, `(A,125,10,OP1,Alice)`. -/
def c1csv : List CSVLine :=
  [Except.ok ["ENROLMENT_NO_DATE", "TOTAL_AMOUNT_CHARGED", "GST_AMOUNT", "OPERATOR_ID", "RESIDENT_NAME"],
   Except.ok ["A", "125", "10", "OP1", "Alice"],
   Except.ok ["B", "75", "5", "OP2", "Bob"],
   Except.ok ["A", "125", "10", "OP1", "Alice"]]

/-- C1: the summary returned by ingestion is independent of the store
state, so every successfully decoded row folds into it whether or not
its insert added a new row; for the scenario file with rows
(A,125,10,OP1,Alice), (B,75,5,OP2,Bob), (A,125,10,OP1,Alice) ingested
on 2024-01-10, the summary is Rows = 3, Revenue = 325, GST = 25, slabs
{125: 2, 75: 1, 0: 0}, and the store ends with exactly the two rows
keyed A and B. -/
theorem c1_summary_counts_rows_seen :
    (∀ (s₁ s₂ : Store) (today : String) (input : List CSVLine),
        (processCSV s₁ today input).2 = (processCSV s₂ today input).2)
    ∧ (∀ (s : Store) (today : String) (headers : List String) (recs : List (List String)),
        firstMissing headers = none → (∀ r ∈ recs, r.length = headers.length) →
        (processCSV s today (Except.ok headers :: recs.map Except.ok)).2.map (·.Rows)
          = Except.ok recs.length)
    ∧ (processCSV [] "2024-01-10" c1csv).1 =
        [⟨"A", 125, 10, "OP1", "Alice", "2024-01-10"⟩,
         ⟨"B", 75, 5, "OP2", "Bob", "2024-01-10"⟩]
    ∧ (processCSV [] "2024-01-10" c1csv).2 =
        Except.ok ⟨"", 3, 325, 25, ⟨2, 1, 0⟩⟩ := by
  refine ⟨fun s₁ s₂ today input =>
    processCSVGen_snd_indep saveTransaction saveTransaction s₁ s₂ today input,
    ?_, by decide, ?_⟩
  · intro s today headers recs hcols hlen
    simp only [processCSV, processCSVGen, hcols]
    have h := processRows_rows_count saveTransaction today headers.length
      (mkIndices headers) recs s emptyResult hlen
    simpa [emptyResult] using h
  · have h2 : (processCSV [] "2024-01-10" c1csv).2 =
        Except.ok ⟨"", 3, 0 + 125 + 75 + 125, 0 + 10 + 5 + 10, ⟨2, 1, 0⟩⟩ := rfl
    rw [h2]
    norm_num

/-- Witness for C1's row-count conjunct at the scenario file. -/
theorem c1_summary_counts_witness :
    (processCSV [] "2024-01-10"
        (Except.ok ["ENROLMENT_NO_DATE", "TOTAL_AMOUNT_CHARGED", "GST_AMOUNT", "OPERATOR_ID", "RESIDENT_NAME"]
          :: [["A", "125", "10", "OP1", "Alice"], ["B", "75", "5", "OP2", "Bob"],
              ["A", "125", "10", "OP1", "Alice"]].map Except.ok)).2.map (·.Rows)
      = Except.ok 3 :=
  c1_summary_counts_rows_seen.2.1 [] "2024-01-10"
    ["ENROLMENT_NO_DATE", "TOTAL_AMOUNT_CHARGED", "GST_AMOUNT", "OPERATOR_ID", "RESIDENT_NAME"]
    [["A", "125", "10", "OP1", "Alice"], ["B", "75", "5", "OP2", "Bob"],
     ["A", "125", "10", "OP1", "Alice"]]
    (by decide) (by decide)

/-- The transaction produced by the `(A,125,10,OP1,Alice)` row. -/
def txA : Transaction := ⟨"A", 125, 10, "OP1", "Alice", "2024-01-10"⟩

/-- C9 counterexample: `saveTransaction` returns only a Go `error`
(`nil`, i.e. `none`, in both cases), not an insertedness indicator: a
call that adds a row (empty store) and a duplicate-key no-op call
(store already holding key A) return the very same value, so the return
value does not state whether a new row was actually added. -/
theorem c9_counterexample :
    (saveTransaction [] txA).1 = [txA]
    ∧ (saveTransaction [txA] txA).1 = [txA]
    ∧ (saveTransaction [] txA).2 = (saveTransaction [txA] txA).2 :=
  ⟨rfl, rfl, rfl⟩

/-- C9 (amended): the store insert never raises on a duplicate key — it
returns the nil error and leaves the store unchanged — and appends the
row when the key is absent; its only return value is that error,
identical in both cases, so whether a new row was added is not reported
to the caller (the SQL statement result is discarded). -/
theorem c9_insert_never_raises (s : Store) (t : Transaction) :
    (saveTransaction s t).2 = none
    ∧ ((∃ r ∈ s, r.EnrolmentNoDate = t.EnrolmentNoDate) → (saveTransaction s t).1 = s)
    ∧ ((∀ r ∈ s, r.EnrolmentNoDate ≠ t.EnrolmentNoDate) → (saveTransaction s t).1 = s ++ [t]) := by
  refine ⟨?_, ?_, ?_⟩
  · unfold saveTransaction; split <;> rfl
  · rintro ⟨r, hr, hk⟩
    have hany : s.any (fun r => r.EnrolmentNoDate == t.EnrolmentNoDate) = true := by
      simp only [List.any_eq_true, beq_iff_eq]
      exact ⟨r, hr, hk⟩
    simp [saveTransaction, hany]
  · intro hall
    have hany : s.any (fun r => r.EnrolmentNoDate == t.EnrolmentNoDate) = false := by
      simp only [List.any_eq_false, beq_iff_eq]
      exact hall
    simp [saveTransaction, hany]

/-- Witness for the amended C9 theorem at the duplicate-key store `[txA]`. -/
theorem c9_insert_never_raises_witness :
    (saveTransaction [txA] txA).2 = none ∧ (saveTransaction [txA] txA).1 = [txA] :=
  ⟨(c9_insert_never_raises [txA] txA).1,
   (c9_insert_never_raises [txA] txA).2.1 ⟨txA, by simp, rfl⟩⟩

/-- C2: every store state reachable through the application's mutations
(created empty, mutated only by `saveTransaction` inserts and
`handleReset`) has pairwise-distinct `enrolment_key`s, and an insert
whose key already exists leaves the store unchanged and reports no
error. -/
theorem c2_key_uniqueness_invariant :
    (∀ s : Store, Reachable s → (s.map (·.EnrolmentNoDate)).Nodup)
    ∧ (∀ (s : Store) (t : Transaction),
        (∃ r ∈ s, r.EnrolmentNoDate = t.EnrolmentNoDate) →
        saveTransaction s t = (s, none)) := by
  constructor
  · intro s hs
    induction hs with
    | empty => simp
    | @save s' t _ ih =>
      by_cases h : s'.any (fun r => r.EnrolmentNoDate == t.EnrolmentNoDate)
      · simpa [saveTransaction, h] using ih
      · have h' : s'.any (fun r => r.EnrolmentNoDate == t.EnrolmentNoDate) = false :=
          eq_false_of_ne_true h
        have hnotin : t.EnrolmentNoDate ∉ s'.map (·.EnrolmentNoDate) := by
          simp only [List.any_eq_false, beq_iff_eq] at h'
          simp only [List.mem_map, not_exists, not_and]
          exact fun r hr hk => h' r hr hk
        simp [saveTransaction, h', List.nodup_append, ih, hnotin]
    | @reset s' _ ih =>
      have hsub : List.Sublist (handleReset s') s' := by
        unfold handleReset
        cases hmax : maxUploadDate s' with
        | none => exact List.Sublist.refl s'
        | some d =>
          dsimp only
          by_cases hd : d = ""
          · rw [if_pos hd]
          · rw [if_neg hd]
            exact List.filter_sublist s'
      exact List.Nodup.sublist (hsub.map _) ih
  · rintro s t ⟨r, hr, hk⟩
    have hany : s.any (fun r => r.EnrolmentNoDate == t.EnrolmentNoDate) = true := by
      simp only [List.any_eq_true, beq_iff_eq]
      exact ⟨r, hr, hk⟩
    simp [saveTransaction, hany]

/-- Witness for C2 at the reachable one-row store `[txA]` and a
duplicate-key insert. -/
theorem c2_key_uniqueness_witness :
    (([txA] : Store).map (·.EnrolmentNoDate)).Nodup
    ∧ saveTransaction [txA] ⟨"A", 1, 2, "X", "Y", "2024-02-02"⟩ = ([txA], none) :=
  ⟨c2_key_uniqueness_invariant.1 [txA] (Reachable.save txA Reachable.empty),
   c2_key_uniqueness_invariant.2 [txA] _ ⟨txA, by simp, rfl⟩⟩

/-- C3: whenever the header row (after trimming each header, compared
case-sensitively) lacks one of the five required columns, ingestion
fails with a `missing column` error naming an absent required header,
before touching the store: the store component is returned unchanged and
no row is persisted. -/
theorem c3_missing_header_aborts (s : Store) (today : String) (headers : List String)
    (body : List CSVLine)
    (hmiss : ∃ r ∈ requiredColumns, ∀ h ∈ headers, trimSpace h ≠ r) :
    ∃ r ∈ requiredColumns, (∀ h ∈ headers, trimSpace h ≠ r) ∧
      processCSV s today (Except.ok headers :: body)
        = (s, Except.error ("missing column: " ++ r)) := by
  have hsome : firstMissing headers ≠ none := by
    unfold firstMissing
    rw [Ne, List.find?_eq_none]
    push_neg
    obtain ⟨r, hr, hnone⟩ := hmiss
    refine ⟨r, hr, ?_⟩
    simp [headerIndex_eq_none_iff.mpr hnone]
  obtain ⟨r', hr'⟩ := Option.ne_none_iff_exists'.mp hsome
  have hr2 : requiredColumns.find? (fun r => (headerIndex headers r).isNone) = some r' := hr'
  have hfound := List.find?_some hr2
  have hnone : headerIndex headers r' = none := by
    simpa [Option.isNone_iff_eq_none] using hfound
  have hmem : r' ∈ requiredColumns := List.mem_of_find?_eq_some hr2
  refine ⟨r', hmem, ?_, ?_⟩
  · exact headerIndex_eq_none_iff.mp hnone
  · simp only [processCSV, processCSVGen]
    rw [hr']

/-- Witness for C3: a header row lacking `GST_AMOUNT`. -/
theorem c3_missing_header_witness :
    ∃ r ∈ requiredColumns,
      (∀ h ∈ ["ENROLMENT_NO_DATE", "TOTAL_AMOUNT_CHARGED", "OPERATOR_ID", "RESIDENT_NAME"],
        trimSpace h ≠ r) ∧
      processCSV [] "2024-01-10"
          [Except.ok ["ENROLMENT_NO_DATE", "TOTAL_AMOUNT_CHARGED", "OPERATOR_ID", "RESIDENT_NAME"],
           Except.ok ["A", "125", "OP1", "Alice"]]
        = ([], Except.error ("missing column: " ++ r)) :=
  c3_missing_header_aborts [] "2024-01-10"
    ["ENROLMENT_NO_DATE", "TOTAL_AMOUNT_CHARGED", "OPERATOR_ID", "RESIDENT_NAME"]
    [Except.ok ["A", "125", "OP1", "Alice"]]
    ⟨"GST_AMOUNT", by decide, by decide⟩

/-- The CSV of the C6 scenario: `TOTAL_AMOUNT_CHARGED` holds the
non-numeric text `abc`. -/
def c6csv : List CSVLine :=
  [Except.ok ["ENROLMENT_NO_DATE", "TOTAL_AMOUNT_CHARGED", "GST_AMOUNT", "OPERATOR_ID", "RESIDENT_NAME"],
   Except.ok ["A", "abc", "2", "OP1", "Alice"]]

/-- C6: a numeric field that fails to parse does not reject the row —
the transaction is built with that field exactly zero, a zero amount is
classified into `Count0` (and no other slab), and in the `abc` scenario
the row is persisted with `amount_charged = 0` while the summary counts
it under `Count0`. -/
theorem c6_bad_numeric_coerces_to_zero :
    (∀ (ix : Indices) (today : String) (rec : List String),
        parseDecimal (rec.getD ix.iAmt "") = none →
        (mkTransaction ix today rec).TotalAmountCharged = 0)
    ∧ (∀ (ix : Indices) (today : String) (rec : List String),
        parseDecimal (rec.getD ix.iGst "") = none →
        (mkTransaction ix today rec).GSTAmount = 0)
    ∧ (∀ sl : SlabCounts, slabAdd sl 0 = ⟨sl.Count125, sl.Count75, sl.Count0 + 1⟩)
    ∧ parseDecimal "abc" = none
    ∧ (processCSV [] "2024-01-10" c6csv).1 = [⟨"A", 0, 2, "OP1", "Alice", "2024-01-10"⟩]
    ∧ (processCSV [] "2024-01-10" c6csv).2 = Except.ok ⟨"", 1, 0, 2, ⟨0, 0, 1⟩⟩ := by
  refine ⟨?_, ?_, ?_, by decide, by decide, ?_⟩
  · intro ix today rec hfail
    show (parseDecimal (rec.getD ix.iAmt "")).getD 0 = 0
    rw [hfail]
    rfl
  · intro ix today rec hfail
    show (parseDecimal (rec.getD ix.iGst "")).getD 0 = 0
    rw [hfail]
    rfl
  · intro sl
    unfold slabAdd
    norm_num
  · have h2 : (processCSV [] "2024-01-10" c6csv).2 =
        Except.ok ⟨"", 1, 0 + 0, 0 + 2, ⟨0, 0, 1⟩⟩ := rfl
    rw [h2]
    norm_num

theorem processRows_map_ok_append_error {σ : Type} (f : σ → Transaction → σ × Option String)
    (today : String) (nF : Nat) (ix : Indices) (e : String) (rest : List CSVLine)
    (recs : List (List String)) :
    ∀ (s : σ) (acc : UploadResult), (∀ r ∈ recs, r.length = nF) →
      processRows f today nF ix s acc (recs.map Except.ok ++ Except.error e :: rest)
        = ((processRows f today nF ix s acc (recs.map Except.ok)).1, Except.error e) := by
  induction recs with
  | nil => intro s acc _; rfl
  | cons r rs ih =>
    intro s acc hlen
    have hr : r.length = nF := hlen r (by simp)
    simp only [List.map_cons, List.cons_append, processRows, if_pos hr]
    exact ih _ _ (fun x hx => hlen x (by simp [hx]))

theorem processRows_map_ok_append_badrec {σ : Type} (f : σ → Transaction → σ × Option String)
    (today : String) (nF : Nat) (ix : Indices) (bad : List String) (rest : List CSVLine)
    (hbad : ¬ bad.length = nF) (recs : List (List String)) :
    ∀ (s : σ) (acc : UploadResult), (∀ r ∈ recs, r.length = nF) →
      processRows f today nF ix s acc (recs.map Except.ok ++ Except.ok bad :: rest)
        = ((processRows f today nF ix s acc (recs.map Except.ok)).1,
           Except.error "record has wrong number of fields") := by
  induction recs with
  | nil =>
    intro s acc _
    simp only [List.map_nil, List.nil_append, processRows, if_neg hbad]
  | cons r rs ih =>
    intro s acc hlen
    have hr : r.length = nF := hlen r (by simp)
    simp only [List.map_cons, List.cons_append, processRows, if_pos hr]
    exact ih _ _ (fun x hx => hlen x (by simp [hx]))

/-- C8: when decoding fails mid-file — a stream read error or a record
with the wrong column count — after the earlier records were processed,
ingestion returns that decode error with no summary, and the store is
exactly the store produced by ingesting just the preceding records: the
already-persisted rows stay committed, with no rollback. -/
theorem c8_midfile_error_no_rollback (s : Store) (today : String) (headers : List String)
    (recs : List (List String)) (e : String) (bad : List String) (rest : List CSVLine)
    (hcols : firstMissing headers = none)
    (hlen : ∀ r ∈ recs, r.length = headers.length)
    (hbad : ¬ bad.length = headers.length) :
    processCSV s today (Except.ok headers :: (recs.map Except.ok ++ Except.error e :: rest))
      = ((processCSV s today (Except.ok headers :: recs.map Except.ok)).1, Except.error e)
    ∧ processCSV s today (Except.ok headers :: (recs.map Except.ok ++ Except.ok bad :: rest))
      = ((processCSV s today (Except.ok headers :: recs.map Except.ok)).1,
         Except.error "record has wrong number of fields") := by
  constructor
  · simp only [processCSV, processCSVGen, hcols]
    exact processRows_map_ok_append_error saveTransaction today headers.length
      (mkIndices headers) e rest recs s emptyResult hlen
  · simp only [processCSV, processCSVGen, hcols]
    exact processRows_map_ok_append_badrec saveTransaction today headers.length
      (mkIndices headers) bad rest hbad recs s emptyResult hlen

/-- Witness for C8: one good row, then a stream error / a 3-field row. -/
theorem c8_midfile_error_witness :
    processCSV [] "2024-01-10"
        (Except.ok ["ENROLMENT_NO_DATE", "TOTAL_AMOUNT_CHARGED", "GST_AMOUNT", "OPERATOR_ID", "RESIDENT_NAME"]
          :: ([["A", "125", "10", "OP1", "Alice"]].map Except.ok ++ Except.error "unexpected EOF" :: []))
      = ((processCSV [] "2024-01-10"
            (Except.ok ["ENROLMENT_NO_DATE", "TOTAL_AMOUNT_CHARGED", "GST_AMOUNT", "OPERATOR_ID", "RESIDENT_NAME"]
              :: [["A", "125", "10", "OP1", "Alice"]].map Except.ok)).1,
         Except.error "unexpected EOF")
    ∧ processCSV [] "2024-01-10"
        (Except.ok ["ENROLMENT_NO_DATE", "TOTAL_AMOUNT_CHARGED", "GST_AMOUNT", "OPERATOR_ID", "RESIDENT_NAME"]
          :: ([["A", "125", "10", "OP1", "Alice"]].map Except.ok ++ Except.ok ["B", "75", "5"] :: []))
      = ((processCSV [] "2024-01-10"
            (Except.ok ["ENROLMENT_NO_DATE", "TOTAL_AMOUNT_CHARGED", "GST_AMOUNT", "OPERATOR_ID", "RESIDENT_NAME"]
              :: [["A", "125", "10", "OP1", "Alice"]].map Except.ok)).1,
         Except.error "record has wrong number of fields") :=
  c8_midfile_error_no_rollback [] "2024-01-10"
    ["ENROLMENT_NO_DATE", "TOTAL_AMOUNT_CHARGED", "GST_AMOUNT", "OPERATOR_ID", "RESIDENT_NAME"]
    [["A", "125", "10", "OP1", "Alice"]] "unexpected EOF" ["B", "75", "5"] []
    (by decide) (by decide) (by decide)

theorem foldl_strLe_max (l : List String) :
    ∀ a : String,
      ((l.foldl (fun x y => if strLe x y then y else x) a) = a
        ∨ (l.foldl (fun x y => if strLe x y then y else x) a) ∈ l)
      ∧ a ≤ l.foldl (fun x y => if strLe x y then y else x) a
      ∧ ∀ d ∈ l, d ≤ l.foldl (fun x y => if strLe x y then y else x) a := by
  induction l with
  | nil => intro a; exact ⟨Or.inl rfl, le_refl a, by simp⟩
  | cons b bs ih =>
    intro a
    simp only [List.foldl_cons]
    by_cases h : strLe a b
    · have hab : a ≤ b := strLe_iff.mp h
      rw [if_pos h]
      obtain ⟨hmem, hle, hall⟩ := ih b
      refine ⟨Or.inr (by rcases hmem with h' | h' <;> simp [h']), le_trans hab hle, ?_⟩
      intro d hd
      rcases List.mem_cons.mp hd with rfl | hd'
      · exact hle
      · exact hall d hd'
    · have hba : b ≤ a := le_of_not_le (fun hc => h (strLe_iff.mpr hc))
      rw [if_neg h]
      obtain ⟨hmem, hle, hall⟩ := ih a
      refine ⟨by rcases hmem with h' | h' <;> simp [h'], hle, ?_⟩
      intro d hd
      rcases List.mem_cons.mp hd with rfl | hd'
      · exact le_trans hba hle
      · exact hall d hd'

/-- `SELECT MAX(upload_date)` returns a value present in the table that
bounds every stored date from above (BINARY collation). -/
theorem maxUploadDate_spec {s : Store} {m : String} (h : maxUploadDate s = some m) :
    (∃ t ∈ s, t.UploadDate = m) ∧ ∀ t ∈ s, t.UploadDate ≤ m := by
  match s, h with
  | t :: ts, h =>
    have hm : m = (ts.map (·.UploadDate)).foldl (fun x y => if strLe x y then y else x) t.UploadDate := by
      simpa [maxUploadDate] using h.symm
    obtain ⟨hmem, hle, hall⟩ := foldl_strLe_max (ts.map (·.UploadDate)) t.UploadDate
    subst hm
    constructor
    · rcases hmem with h' | h'
      · exact ⟨t, by simp, h'.symm⟩
      · obtain ⟨u, hu, hud⟩ := List.mem_map.mp h'
        exact ⟨u, by simp [hu], hud⟩
    · intro u hu
      rcases List.mem_cons.mp hu with rfl | hu'
      · exact hle
      · exact hall _ (List.mem_map_of_mem _ hu')

instance : IsTotal String descOrder :=
  ⟨fun a b => by
    unfold descOrder
    rw [strLe_iff, strLe_iff]
    exact le_total b a⟩

instance : IsTrans String descOrder :=
  ⟨fun a b c hab hbc => by
    unfold descOrder at hab hbc ⊢
    rw [strLe_iff] at hab hbc ⊢
    exact le_trans hbc hab⟩

theorem getHistory_map_Period (s : Store) (period fromD toD : String) :
    (getHistory s period fromD toD).map (·.Period)
      = (((s.filter (fun t => dateInRange fromD toD t.UploadDate)).map
            (fun t => periodKey period t.UploadDate)).dedup).insertionSort descOrder := by
  simp only [getHistory, List.map_map]
  exact List.map_id _

theorem mem_getHistory_map_Period {s : Store} {period fromD toD p : String}
    (hp : p ∈ (getHistory s period fromD toD).map (·.Period)) :
    ∃ t ∈ s, dateInRange fromD toD t.UploadDate = true ∧ periodKey period t.UploadDate = p := by
  rw [getHistory_map_Period] at hp
  have hp2 := (List.perm_insertionSort descOrder _).mem_iff.mp hp
  rw [List.mem_dedup] at hp2
  obtain ⟨t, ht, rfl⟩ := List.mem_map.mp hp2
  have hft := List.mem_filter.mp ht
  exact ⟨t, hft.1, hft.2, rfl⟩

theorem mem_Period_of_mem_store {s : Store} {period fromD toD : String} {t : Transaction}
    (ht : t ∈ s) (hd : dateInRange fromD toD t.UploadDate = true) :
    periodKey period t.UploadDate ∈ (getHistory s period fromD toD).map (·.Period) := by
  rw [getHistory_map_Period, (List.perm_insertionSort descOrder _).mem_iff, List.mem_dedup]
  exact List.mem_map_of_mem _ (List.mem_filter.mpr ⟨ht, hd⟩)

theorem getHistory_bucket_total {s : Store} {period fromD toD : String} {pr : String × Nat}
    (hpr : pr ∈ (getHistory s period fromD toD).map (fun h => (h.Period, h.Total))) :
    pr.2 = ((s.filter (fun t => dateInRange fromD toD t.UploadDate)).filter
        (fun t => periodKey period t.UploadDate == pr.1)).length := by
  simp only [getHistory, List.map_map] at hpr
  obtain ⟨k, _, hkpr⟩ := List.mem_map.mp hpr
  cases hkpr
  rfl

theorem sum_map_add_nat {α : Type} (K : List α) (f g : α → Nat) :
    (K.map (fun k => f k + g k)).sum = (K.map f).sum + (K.map g).sum := by
  induction K with
  | nil => rfl
  | cons k ks ih =>
    simp only [List.map_cons, List.sum_cons, ih]
    omega

theorem sum_indicator_single {K : List String} {x : String} (hK : K.Nodup) (hx : x ∈ K) :
    (K.map (fun k => if x = k then 1 else 0)).sum = 1 := by
  induction K with
  | nil => cases hx
  | cons k ks ih =>
    rcases List.mem_cons.mp hx with rfl | hx'
    · have hnot : x ∉ ks := (List.nodup_cons.mp hK).1
      have hz : (ks.map (fun k => if x = k then 1 else 0)).sum = 0 := by
        rw [List.sum_eq_zero]
        intro n hn
        obtain ⟨k', hk', rfl⟩ := List.mem_map.mp hn
        have hxk : x ≠ k' := by
          intro he
          exact hnot (he ▸ hk')
        rw [if_neg hxk]
      simp [hz]
    · have hne : x ≠ k := by
        intro he
        exact (List.nodup_cons.mp hK).1 (he ▸ hx')
      simp only [List.map_cons, List.sum_cons, if_neg hne,
        ih (List.nodup_cons.mp hK).2 hx']

theorem sum_filter_lengths {α : Type} (g : α → String) (K : List String)
    (hK : K.Nodup) :
    ∀ l : List α, (∀ a ∈ l, g a ∈ K) →
      (K.map (fun k => (l.filter (fun a => g a == k)).length)).sum = l.length := by
  intro l
  induction l with
  | nil => intro _; simp
  | cons a l' ih =>
    intro hcover
    have hcov' : ∀ x ∈ l', g x ∈ K := fun x hx => hcover x (by simp [hx])
    have ha : g a ∈ K := hcover a (by simp)
    have hmap : K.map (fun k => ((a :: l').filter (fun x => g x == k)).length)
        = K.map (fun k =>
            (if g a = k then 1 else 0) + (l'.filter (fun x => g x == k)).length) := by
      apply List.map_congr_left
      intro k _
      by_cases he : g a = k
      · simp [List.filter_cons, he]
        omega
      · simp [List.filter_cons, he]
    rw [hmap, sum_map_add_nat, sum_indicator_single hK ha, ih hcov']
    simp [Nat.add_comm]

theorem getHistory_total_sum (s : Store) (period fromD toD : String) :
    ((getHistory s period fromD toD).map (·.Total)).sum
      = (s.filter (fun t => dateInRange fromD toD t.UploadDate)).length := by
  simp only [getHistory, List.map_map]
  rw [List.Perm.sum_eq ((List.perm_insertionSort descOrder _).map _)]
  exact sum_filter_lengths (fun t => periodKey period t.UploadDate)
    (((s.filter (fun t => dateInRange fromD toD t.UploadDate)).map
        (fun t => periodKey period t.UploadDate)).dedup)
    (List.nodup_dedup _)
    (s.filter (fun t => dateInRange fromD toD t.UploadDate))
    (fun a ha => List.mem_dedup.mpr (List.mem_map_of_mem _ ha))

/-- With no date bounds the WHERE clause is absent: every row passes. -/
theorem filter_dateInRange_nil (s : Store) :
    s.filter (fun t => dateInRange "" "" t.UploadDate) = s :=
  List.filter_eq_self.mpr (fun _ _ => rfl)

/-- The C7 scenario store: batch A on 2024-01-09 (D1), batch B on
2024-01-10 (D2), with D1 < D2. -/
def c7store : Store :=
  [⟨"A", 125, 10, "OP", "Al", "2024-01-09"⟩, ⟨"B", 75, 5, "OP", "Bo", "2024-01-10"⟩]

/-- C7: on any store whose maximum `upload_date` is the (nonempty)
string `m`, the reset deletes exactly the rows dated `m` — every other
row survives in place — where `m` is a date present in the store that
bounds all its dates; on the empty store the reset is a no-op, not an
error; on the two-batch scenario store (D1 = 2024-01-09 < D2 =
2024-01-10) it removes only D2's rows and a second call removes D1's. -/
theorem c7_reset_deletes_latest_batch :
    (∀ (s : Store) (m : String), maxUploadDate s = some m → m ≠ "" →
        handleReset s = s.filter (fun t => t.UploadDate != m)
        ∧ (∃ t ∈ s, t.UploadDate = m) ∧ (∀ t ∈ s, t.UploadDate ≤ m))
    ∧ handleReset ([] : Store) = []
    ∧ handleReset c7store = [⟨"A", 125, 10, "OP", "Al", "2024-01-09"⟩]
    ∧ handleReset (handleReset c7store) = [] := by
  refine ⟨?_, rfl, by decide, by decide⟩
  intro s m hmax hne
  refine ⟨?_, (maxUploadDate_spec hmax).1, (maxUploadDate_spec hmax).2⟩
  unfold handleReset
  rw [hmax]
  dsimp only
  rw [if_neg hne]

/-- Witness for C7 at the two-batch store. -/
theorem c7_reset_witness :
    handleReset c7store = c7store.filter (fun t => t.UploadDate != "2024-01-10")
    ∧ (∃ t ∈ c7store, t.UploadDate = "2024-01-10")
    ∧ (∀ t ∈ c7store, t.UploadDate ≤ "2024-01-10") :=
  c7_reset_deletes_latest_batch.1 c7store "2024-01-10" (by decide) (by decide)

/-- C5 (amended): for every store and granularity, `getHistory` returns
one row per distinct bucket key (keys pairwise distinct), sorted
descending by period key under BINARY collation; every returned key is
the period key of some stored row passing the date filter; the day
bucket key is the raw `upload_date` string, month is year-month, year
is the year, and week is SQLite's `%W` Monday-based week-of-year
prefixed by the calendar year (week 01 starts at the first Monday of
the year, earlier days fall in week 00) — not the ISO week; with
granularity day and no date filter the returned rows cover every stored
row exactly once with no overlapping buckets. -/
theorem c5_group_by_period_amended :
    (∀ (s : Store) (period fromD toD : String),
        List.Sorted (· ≥ ·) ((getHistory s period fromD toD).map (·.Period))
        ∧ ((getHistory s period fromD toD).map (·.Period)).Nodup)
    ∧ (∀ (s : Store) (period fromD toD : String),
        ∀ p ∈ (getHistory s period fromD toD).map (·.Period),
          ∃ t ∈ s, dateInRange fromD toD t.UploadDate = true
            ∧ periodKey period t.UploadDate = p)
    ∧ (∀ d : String, periodKey "day" d = d)
    ∧ (∀ (d : String) (dt : Date), parseDate d = some dt →
        periodKey "week" d = weekKey dt ∧ periodKey "month" d = monthKey dt
          ∧ periodKey "year" d = yearKey dt)
    ∧ (∀ s : Store,
        ((getHistory s "day" "" "").map (·.Total)).sum = s.length
        ∧ (∀ pr ∈ (getHistory s "day" "" "").map (fun h => (h.Period, h.Total)),
            pr.2 = (s.filter (fun t => t.UploadDate == pr.1)).length)
        ∧ (∀ t ∈ s, t.UploadDate ∈ (getHistory s "day" "" "").map (·.Period))) := by
  refine ⟨?_, ?_, ?_, ?_, ?_⟩
  · intro s period fromD toD
    constructor
    · rw [getHistory_map_Period]
      exact (List.sorted_insertionSort descOrder _).imp (fun h => strLe_iff.mp h)
    · rw [getHistory_map_Period]
      exact ((List.perm_insertionSort descOrder _).symm).nodup (List.nodup_dedup _)
  · intro s period fromD toD p hp
    exact mem_getHistory_map_Period hp
  · intro d
    rfl
  · intro d dt hd
    refine ⟨?_, ?_, ?_⟩ <;> simp [periodKey, hd]
  · intro s
    refine ⟨?_, ?_, ?_⟩
    · rw [getHistory_total_sum, filter_dateInRange_nil]
    · intro pr hpr
      have htot := getHistory_bucket_total hpr
      rw [filter_dateInRange_nil] at htot
      exact htot
    · intro t ht
      exact @mem_Period_of_mem_store s "day" "" "" t ht rfl

/-- Witness for C5's amended theorem at the two-batch store and the
date 2024-01-10. -/
theorem c5_group_by_period_witness :
    (List.Sorted (· ≥ ·) ((getHistory c7store "day" "" "").map (·.Period))
      ∧ ((getHistory c7store "day" "" "").map (·.Period)).Nodup)
    ∧ (∃ t ∈ c7store, dateInRange "" "" t.UploadDate = true
        ∧ periodKey "day" t.UploadDate = "2024-01-10")
    ∧ (periodKey "week" "2024-01-10" = weekKey ⟨2024, 1, 10⟩
        ∧ periodKey "month" "2024-01-10" = monthKey ⟨2024, 1, 10⟩
        ∧ periodKey "year" "2024-01-10" = yearKey ⟨2024, 1, 10⟩)
    ∧ ((getHistory c7store "day" "" "").map (·.Total)).sum = c7store.length
    ∧ ((("2024-01-10", 1) : String × Nat)).2
        = (c7store.filter
            (fun t => t.UploadDate == ((("2024-01-10", 1) : String × Nat)).1)).length
    ∧ "2024-01-09" ∈ (getHistory c7store "day" "" "").map (·.Period) :=
  ⟨c5_group_by_period_amended.1 c7store "day" "" "",
   c5_group_by_period_amended.2.1 c7store "day" "" "" "2024-01-10" (by decide),
   c5_group_by_period_amended.2.2.2.1 "2024-01-10" ⟨2024, 1, 10⟩ (by decide),
   (c5_group_by_period_amended.2.2.2.2 c7store).1,
   (c5_group_by_period_amended.2.2.2.2 c7store).2.1 ("2024-01-10", 1) (by decide),
   (c5_group_by_period_amended.2.2.2.2 c7store).2.2
     ⟨"A", 125, 10, "OP", "Al", "2024-01-09"⟩ (by decide)⟩

/-- C5 counterexample: for the single-row store dated 2023-01-01 the
code's week bucket key is `2023-W00` (SQLite `%W`: 2023-01-01 is a
Sunday, before the year's first Monday), while the ISO week of
2023-01-01 is week 52 (of ISO year 2022) — the produced key differs
from any ISO-week-of-year key for that date. -/
theorem c5_week_not_iso_counterexample :
    (getHistory [⟨"X", 0, 0, "OP", "N", "2023-01-01"⟩] "week" "" "").map (·.Period)
      = ["2023-W00"]
    ∧ parseDate "2023-01-01" = some ⟨2023, 1, 1⟩
    ∧ specIsoWeekOfYear ⟨2023, 1, 1⟩ = 52
    ∧ (getHistory [⟨"X", 0, 0, "OP", "N", "2023-01-01"⟩] "week" "" "").map (·.Period)
      ≠ ["2023-W" ++ pad2 (specIsoWeekOfYear ⟨2023, 1, 1⟩)] :=
  ⟨by decide, by decide, by decide, by decide⟩

/-- Witness for C6 at the concrete record with amount text `xyz`. -/
theorem c6_bad_numeric_witness :
    parseDecimal "xyz" = none
    ∧ (mkTransaction ⟨0, 1, 2, 3, 4⟩ "2024-01-10" ["K", "xyz", "3", "OP", "N"]).TotalAmountCharged = 0 :=
  ⟨by decide,
   c6_bad_numeric_coerces_to_zero.1 ⟨0, 1, 2, 3, 4⟩ "2024-01-10" ["K", "xyz", "3", "OP", "N"] (by decide)⟩

end TollVault
